import Mathlib

/-!
Shallow embedding of the weight-and-balance core of `streamlit_app.py`
(aircraft weight-and-balance calculator). Scalars are modelled as exact
rationals `ℚ`; fallible code returns `Except WBError`. Each definition
mirrors one function or code block of the source.
-/

/-- Error kinds raised by the core, mirroring the `ValueError` messages:
`noWeighPoints` is "No weighing points provided.",
`totalWeightNotPositive` is "Total weight must be positive.",
`invalidEnvelopeLimits` is "Invalid CG envelope limits.". -/
inductive WBError where
  | noWeighPoints : WBError
  | totalWeightNotPositive : WBError
  | invalidEnvelopeLimits : WBError
deriving DecidableEq, Repr

/-- One measured load point (dataclass `WeighPoint`). -/
structure WeighPoint where
  name : String
  weight : ℚ
  arm : ℚ
  serial : String
deriving DecidableEq, Repr

/-- Output of a computation pass (dataclass `CGResult`). -/
structure CGResult where
  total_weight : ℚ
  total_moment : ℚ
  cg_arm : ℚ
  mac_percent : Option ℚ
deriving DecidableEq, Repr

/-- An adjustment item: the dict with keys "description", "weight", "arm"
used by the subtraction/addition lists. -/
structure AdjItem where
  description : String
  weight : ℚ
  arm : ℚ
deriving DecidableEq, Repr

/-- Sum of weights of a list of weighing points (`sum(p.weight for p in weigh_points)`). -/
def sumWeights (pts : List WeighPoint) : ℚ :=
  (pts.map (fun p => p.weight)).sum

/-- Sum of moments of a list of weighing points (`sum(p.weight * p.arm for p in weigh_points)`). -/
def sumMoments (pts : List WeighPoint) : ℚ :=
  (pts.map (fun p => p.weight * p.arm)).sum

/-- `compute_cg` from the source: computes CG from a list of weighing
points, optionally with %MAC when LEMAC arm and MAC length are provided.
Raising `ValueError` is modelled as returning `Except.error`. -/
def compute_cg (weigh_points : List WeighPoint)
    (lemac_arm : Option ℚ) (mac_length : Option ℚ) :
    Except WBError CGResult :=
  if weigh_points.isEmpty then
    Except.error WBError.noWeighPoints
  else
    let total_weight := sumWeights weigh_points
    if total_weight ≤ 0 then
      Except.error WBError.totalWeightNotPositive
    else
      let total_moment := sumMoments weigh_points
      let cg_arm := total_moment / total_weight
      let mac_percent : Option ℚ :=
        match lemac_arm, mac_length with
        | some la, some ml =>
            if 0 < ml then some ((cg_arm - la) / ml * 100) else none
        | _, _ => none
      Except.ok
        { total_weight := total_weight
          total_moment := total_moment
          cg_arm := cg_arm
          mac_percent := mac_percent }

/-- `normalise` from the source: normalise a value to 0-1 for plotting,
returning 0.5 when the range is degenerate. -/
def normalise (value : ℚ) (min_val : ℚ) (max_val : ℚ) : ℚ :=
  if max_val ≤ min_val then 1/2
  else (value - min_val) / (max_val - min_val)

/-- The validation gate at the top of `draw_cg_envelope_plot`:
`if min_weight <= 0 or max_weight <= min_weight or aft_limit <= fwd_limit:
raise ValueError("Invalid CG envelope limits.")`. The rest of the function
is matplotlib rendering with no further failure condition on the limits,
so the gate is modelled as the function's limit-checking outcome. -/
def draw_cg_envelope_plot_check (min_weight max_weight fwd_limit aft_limit : ℚ) :
    Except WBError Unit :=
  if min_weight ≤ 0 ∨ max_weight ≤ min_weight ∨ aft_limit ≤ fwd_limit then
    Except.error WBError.invalidEnvelopeLimits
  else
    Except.ok ()

/-- Sum of weights of a list of adjustment items
(`sum(item["weight"] for item in ...)`). -/
def sumAdjW (items : List AdjItem) : ℚ :=
  (items.map (fun i => i.weight)).sum

/-- Sum of moments of a list of adjustment items
(`sum(item["weight"] * item["arm"] for item in ...)`). -/
def sumAdjM (items : List AdjItem) : ℚ :=
  (items.map (fun i => i.weight * i.arm)).sum

/-- The corrected triple plus corrected %MAC produced by the Calculate
handler's adjustment-resolution block. -/
structure CorrectedResult where
  corrected_weight : ℚ
  corrected_moment : ℚ
  corrected_cg : ℚ
  corrected_mac_percent : Option ℚ
deriving DecidableEq, Repr

/-- The adjustment-resolution block of the Calculate handler: from the
as-weighed triple, pitch correction and the two adjustment lists, compute
`pitch_corrected_m`, `corrected_weight`, `corrected_moment`,
`corrected_cg` (with fallback to `as_cg` when the corrected weight is not
positive) and `corrected_mac_percent` (computed only when LEMAC and a
positive MAC length are supplied and the corrected weight is positive). -/
def calculateHandlerResolve (as_w as_m as_cg : ℚ) (pitch_correction : ℚ)
    (subtractions additions : List AdjItem)
    (lemac_arm mac_length : Option ℚ) : CorrectedResult :=
  let sum_sub_w := sumAdjW subtractions
  let sum_sub_m := sumAdjM subtractions
  let sum_add_w := sumAdjW additions
  let sum_add_m := sumAdjM additions
  let pitch_corrected_m := as_m + pitch_correction * as_w
  let corrected_weight := as_w - sum_sub_w + sum_add_w
  let corrected_moment := pitch_corrected_m - sum_sub_m + sum_add_m
  let corrected_cg :=
    if 0 < corrected_weight then corrected_moment / corrected_weight else as_cg
  let corrected_mac_percent : Option ℚ :=
    match lemac_arm, mac_length with
    | some la, some ml =>
        if 0 < ml ∧ 0 < corrected_weight then
          some ((corrected_cg - la) / ml * 100)
        else none
    | _, _ => none
  { corrected_weight := corrected_weight
    corrected_moment := corrected_moment
    corrected_cg := corrected_cg
    corrected_mac_percent := corrected_mac_percent }

/-- The duplicated adjustment-resolution block inside `build_pdf_report`:
it reads `as_w`, `as_m`, `as_cg` from the `result` CGResult and computes
the corrected weight, moment and CG with the same formulas as the
Calculate handler.  Returns the triple
(`corrected_weight`, `corrected_moment`, `corrected_cg`). -/
def build_pdf_report_resolve (result : CGResult) (pitch_correction : ℚ)
    (subtractions additions : List AdjItem) : ℚ × ℚ × ℚ :=
  let as_w := result.total_weight
  let as_m := result.total_moment
  let as_cg := result.cg_arm
  let sum_sub_w := sumAdjW subtractions
  let sum_sub_m := sumAdjM subtractions
  let sum_add_w := sumAdjW additions
  let sum_add_m := sumAdjM additions
  let pitch_corrected_m := as_m + pitch_correction * as_w
  let corrected_weight := as_w - sum_sub_w + sum_add_w
  let corrected_moment := pitch_corrected_m - sum_sub_m + sum_add_m
  let corrected_cg :=
    if 0 < corrected_weight then corrected_moment / corrected_weight else as_cg
  (corrected_weight, corrected_moment, corrected_cg)

/-- Concrete scenario: the three-point simple-gear weighing
NLG 15000 @ 93, LMLG 40000 @ 706.822, RMLG 40000 @ 706.822. -/
def scenarioA : List WeighPoint :=
  [⟨"NLG", 15000, 93, ""⟩,
   ⟨"LMLG", 40000, 706822/1000, ""⟩,
   ⟨"RMLG", 40000, 706822/1000, ""⟩]

/-- On a non-empty point list with positive total weight, `compute_cg`
returns `ok` with the accumulated totals. -/
lemma compute_cg_ok (pts : List WeighPoint) (la ml : Option ℚ)
    (hne : pts ≠ []) (hw : 0 < sumWeights pts) :
    compute_cg pts la ml = Except.ok
      { total_weight := sumWeights pts
        total_moment := sumMoments pts
        cg_arm := sumMoments pts / sumWeights pts
        mac_percent :=
          match la, ml with
          | some l, some m =>
              if 0 < m then
                some ((sumMoments pts / sumWeights pts - l) / m * 100)
              else none
          | _, _ => none } := by
  have h1 : pts.isEmpty = false := by simpa [List.isEmpty_iff] using hne
  simp only [compute_cg, h1, Bool.false_eq_true, if_false, if_neg (not_le.mpr hw)]

/-- C1: for every non-empty list of weighing points whose weights sum to
a positive value, `compute_cg` returns a `CGResult` with `total_weight`
equal to the sum of the point weights, `total_moment` equal to the sum of
weight times arm over the points, and `cg_arm` equal to
`total_moment / total_weight`. -/
theorem compute_cg_totals (pts : List WeighPoint) (la ml : Option ℚ)
    (hne : pts ≠ []) (hw : 0 < sumWeights pts) :
    ∃ r : CGResult, compute_cg pts la ml = Except.ok r ∧
      r.total_weight = sumWeights pts ∧
      r.total_moment = sumMoments pts ∧
      r.cg_arm = r.total_moment / r.total_weight := by
  exact ⟨_, compute_cg_ok pts la ml hne hw, rfl, rfl, rfl⟩

/-- Witness for C1 at the concrete scenario-A weighing. -/
theorem compute_cg_totals_witness :
    (scenarioA ≠ [] ∧ 0 < sumWeights scenarioA) ∧
    (∃ r : CGResult, compute_cg scenarioA none none = Except.ok r ∧
      r.total_weight = sumWeights scenarioA ∧
      r.total_moment = sumMoments scenarioA ∧
      r.cg_arm = r.total_moment / r.total_weight) :=
  ⟨⟨by simp [scenarioA], by norm_num [scenarioA, sumWeights]⟩,
   compute_cg_totals scenarioA none none (by simp [scenarioA])
     (by norm_num [scenarioA, sumWeights])⟩

/-- C2: `compute_cg` fails with the no-points error exactly on the empty
sequence, fails with the non-positive-weight error exactly when the list
is non-empty and its weights sum to a non-positive value (regardless of
individual signs), and returns a result on every other input. -/
theorem compute_cg_error_conditions (pts : List WeighPoint) (la ml : Option ℚ) :
    (compute_cg pts la ml = Except.error WBError.noWeighPoints ↔ pts = []) ∧
    (compute_cg pts la ml = Except.error WBError.totalWeightNotPositive ↔
      pts ≠ [] ∧ sumWeights pts ≤ 0) ∧
    (pts ≠ [] → 0 < sumWeights pts →
      ∃ r : CGResult, compute_cg pts la ml = Except.ok r) := by
  by_cases hne : pts = []
  · subst hne
    refine ⟨by simp [compute_cg], by simp [compute_cg], fun h _ => absurd rfl h⟩
  · have h1 : pts.isEmpty = false := by simpa [List.isEmpty_iff] using hne
    by_cases hw : sumWeights pts ≤ 0
    · constructor
      · simp [compute_cg, h1, hw, hne]
      · constructor
        · simp [compute_cg, h1, hw, hne]
        · intro _ hpos
          exact absurd hw (not_le.mpr hpos)
    · have hpos : 0 < sumWeights pts := not_le.mp hw
      refine ⟨?_, ?_, fun _ _ => ⟨_, compute_cg_ok pts la ml hne hpos⟩⟩
      · rw [compute_cg_ok pts la ml hne hpos]; simp [hne]
      · rw [compute_cg_ok pts la ml hne hpos]; simp [hw]

/-- Witness for C2: the empty list, an aggregate-non-positive list, and a
well-formed list, each hitting the stated branch. -/
theorem compute_cg_error_conditions_witness :
    compute_cg [] none none = Except.error WBError.noWeighPoints ∧
    compute_cg [⟨"NLG", 5, 10, ""⟩, ⟨"LMLG", -5, 20, ""⟩] none none
      = Except.error WBError.totalWeightNotPositive ∧
    (∃ r : CGResult, compute_cg scenarioA none none = Except.ok r) :=
  ⟨(compute_cg_error_conditions [] none none).1.mpr rfl,
   (compute_cg_error_conditions [⟨"NLG", 5, 10, ""⟩, ⟨"LMLG", -5, 20, ""⟩]
      none none).2.1.mpr ⟨by simp, by norm_num [sumWeights]⟩,
   (compute_cg_error_conditions scenarioA none none).2.2 (by simp [scenarioA])
     (by norm_num [scenarioA, sumWeights])⟩

/-- C9: `normalise` is total: whenever `max_val ≤ min_val` it returns
`1/2` (the 0.5 fallback, taken before any division), and otherwise it
returns `(value - min_val) / (max_val - min_val)`, so the divisor is
never zero. -/
theorem normalise_total (value min_val max_val : ℚ) :
    (max_val ≤ min_val → normalise value min_val max_val = 1/2) ∧
    (min_val < max_val →
      normalise value min_val max_val = (value - min_val) / (max_val - min_val)) := by
  constructor
  · intro h; simp [normalise, h]
  · intro h; simp [normalise, not_le.mpr h]

/-- Witness for C9 at a degenerate and a proper range. -/
theorem normalise_total_witness :
    ((5:ℚ) ≤ 5 ∧ normalise 3 5 5 = 1/2) ∧
    ((2:ℚ) < 5 ∧ normalise 3 2 5 = (3 - 2) / (5 - 2)) :=
  ⟨⟨le_refl 5, (normalise_total 3 5 5).1 (le_refl 5)⟩,
   ⟨by norm_num, (normalise_total 3 2 5).2 (by norm_num)⟩⟩

/-- C10: the adjustment resolution duplicated inside `build_pdf_report`
computes the same corrected weight, corrected moment and corrected CG as
the Calculate handler's resolution on every identical input. -/
theorem pdf_resolution_matches_handler (result : CGResult) (pc : ℚ)
    (subs adds : List AdjItem) (la ml : Option ℚ) :
    build_pdf_report_resolve result pc subs adds =
      ((calculateHandlerResolve result.total_weight result.total_moment
          result.cg_arm pc subs adds la ml).corrected_weight,
       (calculateHandlerResolve result.total_weight result.total_moment
          result.cg_arm pc subs adds la ml).corrected_moment,
       (calculateHandlerResolve result.total_weight result.total_moment
          result.cg_arm pc subs adds la ml).corrected_cg) := rfl

/-- C3: the Calculate handler's resolution computes
`corrected_weight = as_w - sum_sub_w + sum_add_w`,
`corrected_moment = (as_m + pitch_correction * as_w) - sum_sub_m + sum_add_m`
(the pitch-corrected moment minus subtraction moments plus addition
moments), and `corrected_cg = corrected_moment / corrected_weight`
whenever the corrected weight is positive. -/
theorem handler_resolution_formulas (as_w as_m as_cg pc : ℚ)
    (subs adds : List AdjItem) (la ml : Option ℚ) :
    (calculateHandlerResolve as_w as_m as_cg pc subs adds la ml).corrected_weight
      = as_w - sumAdjW subs + sumAdjW adds ∧
    (calculateHandlerResolve as_w as_m as_cg pc subs adds la ml).corrected_moment
      = (as_m + pc * as_w) - sumAdjM subs + sumAdjM adds ∧
    (0 < (calculateHandlerResolve as_w as_m as_cg pc subs adds la ml).corrected_weight →
      (calculateHandlerResolve as_w as_m as_cg pc subs adds la ml).corrected_cg
        = (calculateHandlerResolve as_w as_m as_cg pc subs adds la ml).corrected_moment
          / (calculateHandlerResolve as_w as_m as_cg pc subs adds la ml).corrected_weight) := by
  refine ⟨rfl, rfl, fun h => ?_⟩
  have h' : 0 < as_w - sumAdjW subs + sumAdjW adds := h
  simp only [calculateHandlerResolve, if_pos h']

/-- Witness for C3: the concrete scenario-C adjustment
(as-weighed 95000 / 57940760, one subtraction 500 @ 400, one addition
1000 @ 900, zero pitch correction). -/
theorem handler_resolution_formulas_witness :
    (calculateHandlerResolve 95000 57940760 (5794076/9500) 0
        [⟨"ballast out", 500, 400⟩] [⟨"equipment in", 1000, 900⟩]
        none none).corrected_weight
      = 95000 - sumAdjW [⟨"ballast out", 500, 400⟩]
          + sumAdjW [⟨"equipment in", 1000, 900⟩] ∧
    (calculateHandlerResolve 95000 57940760 (5794076/9500) 0
        [⟨"ballast out", 500, 400⟩] [⟨"equipment in", 1000, 900⟩]
        none none).corrected_moment
      = (57940760 + 0 * 95000) - sumAdjM [⟨"ballast out", 500, 400⟩]
          + sumAdjM [⟨"equipment in", 1000, 900⟩] ∧
    (0 < (calculateHandlerResolve 95000 57940760 (5794076/9500) 0
        [⟨"ballast out", 500, 400⟩] [⟨"equipment in", 1000, 900⟩]
        none none).corrected_weight) ∧
    (calculateHandlerResolve 95000 57940760 (5794076/9500) 0
        [⟨"ballast out", 500, 400⟩] [⟨"equipment in", 1000, 900⟩]
        none none).corrected_cg
      = (calculateHandlerResolve 95000 57940760 (5794076/9500) 0
          [⟨"ballast out", 500, 400⟩] [⟨"equipment in", 1000, 900⟩]
          none none).corrected_moment
        / (calculateHandlerResolve 95000 57940760 (5794076/9500) 0
          [⟨"ballast out", 500, 400⟩] [⟨"equipment in", 1000, 900⟩]
          none none).corrected_weight :=
  ⟨(handler_resolution_formulas 95000 57940760 (5794076/9500) 0
      [⟨"ballast out", 500, 400⟩] [⟨"equipment in", 1000, 900⟩] none none).1,
   (handler_resolution_formulas 95000 57940760 (5794076/9500) 0
      [⟨"ballast out", 500, 400⟩] [⟨"equipment in", 1000, 900⟩] none none).2.1,
   by norm_num [calculateHandlerResolve, sumAdjW],
   (handler_resolution_formulas 95000 57940760 (5794076/9500) 0
      [⟨"ballast out", 500, 400⟩] [⟨"equipment in", 1000, 900⟩] none none).2.2
     (by norm_num [calculateHandlerResolve, sumAdjW])⟩

/-- C4: whenever the computed corrected weight is non-positive (including
exactly zero), the resolver returns the as-weighed CG arm as
`corrected_cg`; no division is attempted on that branch. -/
theorem handler_fallback (as_w as_m as_cg pc : ℚ)
    (subs adds : List AdjItem) (la ml : Option ℚ)
    (h : (calculateHandlerResolve as_w as_m as_cg pc subs adds la ml).corrected_weight ≤ 0) :
    (calculateHandlerResolve as_w as_m as_cg pc subs adds la ml).corrected_cg = as_cg := by
  have h' : ¬ (0 < as_w - sumAdjW subs + sumAdjW adds) := not_lt.mpr h
  simp only [calculateHandlerResolve, if_neg h']

/-- Witness for C4: as-weighed weight 1000 fully removed by a 1000-unit
subtraction, making the corrected weight exactly zero; the resolver
reports the as-weighed CG 250. -/
theorem handler_fallback_witness :
    (calculateHandlerResolve 1000 250000 250 0 [⟨"all ballast", 1000, 300⟩] []
        none none).corrected_weight ≤ 0 ∧
    (calculateHandlerResolve 1000 250000 250 0 [⟨"all ballast", 1000, 300⟩] []
        none none).corrected_cg = 250 :=
  ⟨by norm_num [calculateHandlerResolve, sumAdjW],
   handler_fallback 1000 250000 250 0 [⟨"all ballast", 1000, 300⟩] [] none none
     (by norm_num [calculateHandlerResolve, sumAdjW])⟩

/-- Counterexample to C5: with LEMAC arm 10 supplied and MAC length 5 > 0,
but a corrected weight of 1 - 2 = -1 ≤ 0, the Calculate handler suppresses
the corrected percent-MAC (returns none), so the percent-MAC is not
independent of the sign of the corrected weight. -/
theorem corrected_mac_cex :
    ((0:ℚ) < 5) ∧
    (calculateHandlerResolve 1 10 7 0 [⟨"ballast", 2, 3⟩] []
        (some 10) (some 5)).corrected_weight ≤ 0 ∧
    (calculateHandlerResolve 1 10 7 0 [⟨"ballast", 2, 3⟩] []
        (some 10) (some 5)).corrected_mac_percent = none := by
  refine ⟨by norm_num, ?_, ?_⟩ <;>
    norm_num [calculateHandlerResolve, sumAdjW, sumAdjM]

/-- C5 (amended): the corrected percent-MAC is present, and equal to
`(corrected_cg - lemac_arm) / mac_length * 100`, exactly when the LEMAC
arm is provided, the MAC length is provided and positive, and the
corrected weight is positive; it is `none` whenever either value is
missing, the MAC length is non-positive, or the corrected weight is
non-positive. -/
theorem corrected_mac_amended (as_w as_m as_cg pc : ℚ)
    (subs adds : List AdjItem) (la ml : ℚ) :
    (0 < ml →
      0 < (calculateHandlerResolve as_w as_m as_cg pc subs adds
            (some la) (some ml)).corrected_weight →
      (calculateHandlerResolve as_w as_m as_cg pc subs adds
          (some la) (some ml)).corrected_mac_percent
        = some (((calculateHandlerResolve as_w as_m as_cg pc subs adds
            (some la) (some ml)).corrected_cg - la) / ml * 100)) ∧
    (ml ≤ 0 ∨ (calculateHandlerResolve as_w as_m as_cg pc subs adds
          (some la) (some ml)).corrected_weight ≤ 0 →
      (calculateHandlerResolve as_w as_m as_cg pc subs adds
          (some la) (some ml)).corrected_mac_percent = none) ∧
    (∀ mo : Option ℚ,
      (calculateHandlerResolve as_w as_m as_cg pc subs adds
          none mo).corrected_mac_percent = none) ∧
    (∀ lo : Option ℚ,
      (calculateHandlerResolve as_w as_m as_cg pc subs adds
          lo none).corrected_mac_percent = none) := by
  refine ⟨fun hml hcw => ?_, fun h => ?_, fun mo => ?_, fun lo => ?_⟩
  · have hcw' : 0 < as_w - sumAdjW subs + sumAdjW adds := hcw
    simp only [calculateHandlerResolve]
    rw [if_pos ⟨hml, hcw'⟩]
  · have hn : ¬ (0 < ml ∧ 0 < as_w - sumAdjW subs + sumAdjW adds) := by
      rcases h with h | h
      · exact fun hc => absurd hc.1 (not_lt.mpr h)
      · exact fun hc => absurd hc.2 (not_lt.mpr h)
    simp only [calculateHandlerResolve]
    rw [if_neg hn]
  · cases mo <;> rfl
  · cases lo <;> rfl

/-- Witness for C5 (amended) at concrete inputs hitting the present
branch and the suppressed branch. -/
theorem corrected_mac_amended_witness :
    ((0:ℚ) < 20 ∧
      0 < (calculateHandlerResolve 100 5000 50 0 [] []
            (some 40) (some 20)).corrected_weight ∧
      (calculateHandlerResolve 100 5000 50 0 [] []
          (some 40) (some 20)).corrected_mac_percent
        = some (((calculateHandlerResolve 100 5000 50 0 [] []
            (some 40) (some 20)).corrected_cg - 40) / 20 * 100)) ∧
    (calculateHandlerResolve 1 10 7 0 [⟨"ballast", 2, 3⟩] []
        (some 10) (some 20)).corrected_mac_percent = none :=
  ⟨⟨by norm_num,
    by norm_num [calculateHandlerResolve, sumAdjW],
    (corrected_mac_amended 100 5000 50 0 [] [] 40 20).1 (by norm_num)
      (by norm_num [calculateHandlerResolve, sumAdjW])⟩,
   (corrected_mac_amended 1 10 7 0 [⟨"ballast", 2, 3⟩] [] 10 20).2.1
     (Or.inr (by norm_num [calculateHandlerResolve, sumAdjW]))⟩

/-- A successful `compute_cg` run implies a non-empty point list with
positive total weight. -/
lemma compute_cg_ok_inv (pts : List WeighPoint) (la ml : Option ℚ)
    (r : CGResult) (h : compute_cg pts la ml = Except.ok r) :
    pts ≠ [] ∧ 0 < sumWeights pts := by
  by_cases hne : pts = []
  · subst hne; simp [compute_cg] at h
  · have h1 : pts.isEmpty = false := by simpa [List.isEmpty_iff] using hne
    refine ⟨hne, ?_⟩
    by_cases hw : sumWeights pts ≤ 0
    · simp [compute_cg, h1, hw] at h
    · exact not_le.mp hw

/-- C6: on a successful run, `mac_percent` equals
`(cg_arm - lemac_arm) / mac_length * 100` when both optional arguments
are provided and the MAC length is positive; it is `none` when the MAC
length is non-positive or either argument is absent; and the optional
arguments never affect whether the computation succeeds. -/
theorem compute_cg_mac_percent (pts : List WeighPoint) (la ml : ℚ) :
    (∀ r : CGResult, 0 < ml →
      compute_cg pts (some la) (some ml) = Except.ok r →
      r.mac_percent = some ((r.cg_arm - la) / ml * 100)) ∧
    (∀ r : CGResult, ml ≤ 0 →
      compute_cg pts (some la) (some ml) = Except.ok r →
      r.mac_percent = none) ∧
    (∀ (mo : Option ℚ) (r : CGResult),
      compute_cg pts none mo = Except.ok r → r.mac_percent = none) ∧
    (∀ (lo : Option ℚ) (r : CGResult),
      compute_cg pts lo none = Except.ok r → r.mac_percent = none) ∧
    (∀ lo mo : Option ℚ,
      (compute_cg pts lo mo).isOk = (compute_cg pts none none).isOk) := by
  refine ⟨?_, ?_, ?_, ?_, ?_⟩
  · intro r hml h
    obtain ⟨hne, hpos⟩ := compute_cg_ok_inv pts _ _ r h
    rw [compute_cg_ok pts _ _ hne hpos] at h
    injection h with h
    subst h
    simp [hml]
  · intro r hml h
    obtain ⟨hne, hpos⟩ := compute_cg_ok_inv pts _ _ r h
    rw [compute_cg_ok pts _ _ hne hpos] at h
    injection h with h
    subst h
    simp [not_lt.mpr hml]
  · intro mo r h
    obtain ⟨hne, hpos⟩ := compute_cg_ok_inv pts _ _ r h
    rw [compute_cg_ok pts _ _ hne hpos] at h
    injection h with h
    subst h
    cases mo <;> rfl
  · intro lo r h
    obtain ⟨hne, hpos⟩ := compute_cg_ok_inv pts _ _ r h
    rw [compute_cg_ok pts _ _ hne hpos] at h
    injection h with h
    subst h
    cases lo <;> rfl
  · intro lo mo
    by_cases hne : pts = []
    · subst hne; simp [compute_cg]
    · have h1 : pts.isEmpty = false := by simpa [List.isEmpty_iff] using hne
      by_cases hw : sumWeights pts ≤ 0
      · simp [compute_cg, h1, hw]
      · rw [compute_cg_ok pts lo mo hne (not_le.mp hw),
          compute_cg_ok pts none none hne (not_le.mp hw)]
        rfl

/-- Witness for C6: a single 100-unit point at arm 50 with LEMAC 40 and
MAC length 20 yields mac_percent (50 - 40) / 20 * 100 = 50. -/
theorem compute_cg_mac_percent_witness :
    ∃ r : CGResult,
      compute_cg [⟨"NLG", 100, 50, ""⟩] (some 40) (some 20) = Except.ok r ∧
      r.mac_percent = some ((r.cg_arm - 40) / 20 * 100) := by
  have h : compute_cg [⟨"NLG", 100, 50, ""⟩] (some 40) (some 20)
      = Except.ok ⟨100, 5000, 50, some 50⟩ := by
    norm_num [compute_cg, sumWeights, sumMoments]
  exact ⟨_, h,
    (compute_cg_mac_percent [⟨"NLG", 100, 50, ""⟩] 40 20).1 _ (by norm_num) h⟩

/-- C7: for every non-empty point sequence with positive total weight and
every permutation of it, `compute_cg` yields the same total weight, total
moment and CG arm on the permuted sequence as on the original. -/
theorem compute_cg_perm_invariant (pts pts' : List WeighPoint)
    (la ml : Option ℚ) (hp : pts.Perm pts')
    (hne : pts ≠ []) (hw : 0 < sumWeights pts) :
    ∃ r r' : CGResult,
      compute_cg pts la ml = Except.ok r ∧
      compute_cg pts' la ml = Except.ok r' ∧
      r.total_weight = r'.total_weight ∧
      r.total_moment = r'.total_moment ∧
      r.cg_arm = r'.cg_arm := by
  have hW : sumWeights pts = sumWeights pts' :=
    List.Perm.sum_eq (hp.map (fun p => p.weight))
  have hM : sumMoments pts = sumMoments pts' :=
    List.Perm.sum_eq (hp.map (fun p => p.weight * p.arm))
  have hne' : pts' ≠ [] := by
    intro h
    exact hne (List.Perm.eq_nil (h ▸ hp))
  refine ⟨_, _, compute_cg_ok pts la ml hne hw,
    compute_cg_ok pts' la ml hne' (hW ▸ hw), ?_, ?_, ?_⟩ <;> simp [hW, hM]

/-- Witness for C7: scenario A and the swap of its first two points. -/
theorem compute_cg_perm_invariant_witness :
    ∃ r r' : CGResult,
      compute_cg scenarioA none none = Except.ok r ∧
      compute_cg [⟨"LMLG", 40000, 706822/1000, ""⟩, ⟨"NLG", 15000, 93, ""⟩,
          ⟨"RMLG", 40000, 706822/1000, ""⟩] none none = Except.ok r' ∧
      r.total_weight = r'.total_weight ∧
      r.total_moment = r'.total_moment ∧
      r.cg_arm = r'.cg_arm :=
  compute_cg_perm_invariant scenarioA
    [⟨"LMLG", 40000, 706822/1000, ""⟩, ⟨"NLG", 15000, 93, ""⟩,
     ⟨"RMLG", 40000, 706822/1000, ""⟩] none none
    (by simp only [scenarioA]; exact List.Perm.swap _ _ _)
    (by simp [scenarioA]) (by norm_num [scenarioA, sumWeights])

/-- Counterexample to C8: the quadruple (min_weight 0, max_weight 1,
fwd_limit 0, aft_limit 1) satisfies min_weight < max_weight and
fwd_limit < aft_limit, yet `draw_cg_envelope_plot` rejects it, because
the code additionally requires `min_weight > 0`. -/
theorem envelope_limits_cex :
    ((0:ℚ) < 1 ∧ (0:ℚ) < 1) ∧
    draw_cg_envelope_plot_check 0 1 0 1
      = Except.error WBError.invalidEnvelopeLimits := by
  refine ⟨⟨by norm_num, by norm_num⟩, ?_⟩
  norm_num [draw_cg_envelope_plot_check]

/-- C8 (amended): `draw_cg_envelope_plot` rejects its limits exactly when
`min_weight ≤ 0`, `max_weight ≤ min_weight`, or `aft_limit ≤ fwd_limit`;
it proceeds exactly when `0 < min_weight`, `min_weight < max_weight` and
`fwd_limit < aft_limit` all hold. -/
theorem envelope_limits_amended (min_weight max_weight fwd_limit aft_limit : ℚ) :
    (draw_cg_envelope_plot_check min_weight max_weight fwd_limit aft_limit
        = Except.error WBError.invalidEnvelopeLimits
      ↔ min_weight ≤ 0 ∨ max_weight ≤ min_weight ∨ aft_limit ≤ fwd_limit) ∧
    (draw_cg_envelope_plot_check min_weight max_weight fwd_limit aft_limit
        = Except.ok ()
      ↔ 0 < min_weight ∧ min_weight < max_weight ∧ fwd_limit < aft_limit) := by
  simp only [draw_cg_envelope_plot_check]
  by_cases h : min_weight ≤ 0 ∨ max_weight ≤ min_weight ∨ aft_limit ≤ fwd_limit
  · rw [if_pos h]
    refine ⟨⟨fun _ => h, fun _ => rfl⟩, ⟨fun hok => absurd hok (by simp), ?_⟩⟩
    rintro ⟨h1, h2, h3⟩
    rcases h with h | h | h
    · exact absurd h1 (not_lt.mpr h)
    · exact absurd h2 (not_lt.mpr h)
    · exact absurd h3 (not_lt.mpr h)
  · rw [if_neg h]
    push_neg at h
    obtain ⟨h1, h2, h3⟩ := h
    refine ⟨⟨fun hok => absurd hok (by simp), ?_⟩, ⟨fun _ => ⟨h1, h2, h3⟩, fun _ => rfl⟩⟩
    intro hcond
    rcases hcond with hc | hc | hc
    · exact absurd hc (not_le.mpr h1)
    · exact absurd hc (not_le.mpr h2)
    · exact absurd hc (not_le.mpr h3)
